import Mathlib

/-!
Verification of the RegionFileUpdater plugin (src/region_file_updater/__init__.py)
against its natural-language specification.

The Python source is shallowly embedded below.  Pure helpers become Lean
functions; the process-wide mutable globals (regionList, protectedRegionList,
historyList, and the protected-region JSON side file) become an explicit
`PluginState` record, with each command handler a state transformer; the
filesystem touched by the update batch is a list of existing paths, and
possible I/O errors of `os.remove` / `shutil.copyfile` are injected through an
explicit fault oracle.  JSON contents are modelled at the parsed-value level:
`jsonlib.load` either yields a `Json` value or raises (the `corrupt` file
state); string-level parsing belongs to the external json library.
-/

namespace RFU

/-- `Region(x, z, dim)` from the source: an immutable coordinate triple with
structural equality (`__eq__` compares the three fields). -/
structure Region where
  x : Int
  z : Int
  dim : Int
deriving DecidableEq, Repr

/-- `dimension_region_folder` values are `str | list[str]` in the source. -/
inductive FolderSpec where
  | single (s : String)
  | multi (l : List String)
deriving DecidableEq, Repr

/-- Normalisation used only on the specification side: the spec says a single
folder name behaves as a one-element list. -/
def FolderSpec.toList : FolderSpec → List String
  | .single s => [s]
  | .multi l => l

/-- The `Config` class of the source (the fields the core reads). -/
structure Config where
  enabled : Bool
  protected_region_file_name : String
  source_world_directory : String
  destination_world_directory : String
  dimension_region_folder : List (String × FolderSpec)
deriving DecidableEq, Repr

/-- `os.path.join` for the two-argument uses in the source. -/
def pathJoin (a b : String) : String := a ++ "/" ++ b

/-- `Region.to_file_name`: `f"r.{self.x}.{self.z}.mca"`. -/
def Region.to_file_name (self : Region) : String :=
  "r." ++ toString self.x ++ "." ++ toString self.z ++ ".mca"

/-- `Region.to_file_list`: looks up `config.dimension_region_folder[str(self.dim)]`
(raising `KeyError` when the key is missing, modelled as `.error`), then joins
each folder with the file name; a `str` value gives one path, a list gives one
path per folder in list order. -/
def Region.to_file_list (self : Region) (config : Config) : Except String (List String) :=
  match config.dimension_region_folder.lookup (toString self.dim) with
  | none => .error "KeyError"
  | some (.single folders) => .ok [pathJoin folders self.to_file_name]
  | some (.multi folders) =>
      .ok (folders.map (fun folder => pathJoin folder self.to_file_name))

/-- The reply `add_region` sends: the source replies either "already in the
list" or "added"; in the remaining case (region protected) it replies nothing,
which is the `none` of the `Option`. -/
inductive AddReply where
  | alreadyExists
  | added
deriving DecidableEq, Repr

/-- `add_region(source, region)` acting on the globals `regionList` and
`protectedRegionList`: `if region in regionList` reply alreadyExists;
`elif region not in protectedRegionList` append and reply added; else nothing. -/
def add_region (regionList protectedRegionList : List Region) (region : Region) :
    List Region × Option AddReply :=
  if region ∈ regionList then
    (regionList, some .alreadyExists)
  else if region ∉ protectedRegionList then
    (regionList ++ [region], some .added)
  else
    (regionList, none)

/-- `delete_region`: `regionList.remove(region)` when present (Python
`list.remove` drops the first occurrence), otherwise only a reply. -/
def delete_region (regionList : List Region) (region : Region) : List Region :=
  if region ∈ regionList then regionList.erase region else regionList

/-- Parsed JSON values, the granularity at which `jsonlib` hands data to the
plugin. -/
inductive Json where
  | num (n : Int)
  | str (s : String)
  | arr (l : List Json)
  | obj (fields : List (String × Json))

/-- MCDR `serialize` on one `Region`: the dict `{"x": x, "z": z, "dim": dim}`. -/
def serializeRegion (r : Region) : Json :=
  .obj [("x", .num r.x), ("z", .num r.z), ("dim", .num r.dim)]

/-- MCDR `serialize` on the protected region list: a JSON array of the
serialized regions, in list order. -/
def serializeRegionList (l : List Region) : Json :=
  .arr (l.map serializeRegion)

/-- The protected-region side file: missing, unparseable, or holding a parsed
JSON value. -/
inductive FileContent where
  | absent
  | corrupt
  | content (j : Json)

/-- `save_protected_region_file`: writes `serialize(protectedRegionList)` to
the file, replacing what was there. -/
def save_protected_region_file (protectedRegionList : List Region) : FileContent :=
  .content (serializeRegionList protectedRegionList)

/-- `Region(r["x"], r["z"], r["dim"])` for one parsed entry: `none` models the
KeyError/TypeError raised when the entry is not an object with those numeric
fields. -/
def decodeRegion : Json → Option Region
  | .obj fields =>
      match fields.lookup "x", fields.lookup "z", fields.lookup "dim" with
      | some (.num x), some (.num z), some (.num dim) => some ⟨x, z, dim⟩
      | _, _, _ => none
  | _ => none

/-- `protectedRegionList.extend(Region(...) for r in data)`: appends decoded
entries one by one; a bad entry raises after the earlier entries were already
appended (second component `false` means an exception escaped). -/
def extendRegions (acc : List Region) : List Json → List Region × Bool
  | [] => (acc, true)
  | j :: rest =>
      match decodeRegion j with
      | none => (acc, false)
      | some r => extendRegions (acc ++ [r]) rest

/-- Result of `load_protected_region_file`: the new in-memory list, the file
afterwards, whether the corruption error was logged, and whether an exception
escaped the function. -/
structure LoadResult where
  protectedRegionList : List Region
  file : FileContent
  loggedCorruption : Bool
  raised : Bool

/-- `load_protected_region_file`: missing file does nothing; an unparseable
file logs the error, sets `protectedRegionList = []` and rewrites the file via
`save_protected_region_file`; a parsed file extends the current in-memory list
with its entries (iterating a non-array raises before extending anything). -/
def load_protected_region_file (protectedRegionList : List Region) (file : FileContent) :
    LoadResult :=
  match file with
  | .absent => ⟨protectedRegionList, .absent, false, false⟩
  | .corrupt => ⟨[], save_protected_region_file [], true, false⟩
  | .content j =>
      match j with
      | .arr js =>
          let res := extendRegions protectedRegionList js
          ⟨res.1, .content j, false, !res.2⟩
      | _ => ⟨protectedRegionList, .content j, false, true⟩

/-- `int(...)` of Python applied to an exact rational: truncation toward
zero. -/
def pyInt (q : ℚ) : Int := q.num.sign * ((q.num.natAbs / q.den : Nat) : Int)

/-- `get_region_from_source`: builds
`Region(int(coord.x) // 512, int(coord.z) // 512, dim)`; Python `//` is floor
division, `Int.fdiv` here. -/
def get_region_from_source (coordX coordZ : ℚ) (dim : Int) : Region :=
  ⟨Int.fdiv (pyInt coordX) 512, Int.fdiv (pyInt coordZ) 512, dim⟩

/-- Fault oracle for the file operations of the transfer loop: which
`os.remove` targets and which `shutil.copyfile` pairs raise an I/O error. -/
structure Faults where
  removeFaults : List String
  copyFaults : List (String × String)
deriving DecidableEq, Repr

/-- `os.remove(p)`: raises when the path is missing or when the oracle says the
deletion fails; otherwise the path is gone. -/
def os_remove (flt : Faults) (fs : List String) (p : String) : Except String (List String) :=
  if p ∉ fs then .error "FileNotFoundError"
  else if p ∈ flt.removeFaults then .error "OSError"
  else .ok (fs.erase p)

/-- `shutil.copyfile(src, dst)`: raises when the source is missing (the code
path the spec flags as its open question) or when the oracle says the copy
fails; otherwise the destination exists afterwards. -/
def shutil_copyfile (flt : Faults) (fs : List String) (src dst : String) :
    Except String (List String) :=
  if src ∉ fs then .error "FileNotFoundError"
  else if (src, dst) ∈ flt.copyFaults then .error "OSError"
  else .ok (if dst ∈ fs then fs else fs ++ [dst])

/-- The `try` block of the transfer loop for one relative path: delete the
destination when the source is gone and the destination exists, otherwise copy;
an exception yields `flag = False` and leaves the filesystem as it was, success
yields `flag = True`. -/
def process_file (config : Config) (flt : Faults) (fs : List String) (region_file : String) :
    List String × Bool :=
  let src_file := pathJoin config.source_world_directory region_file
  let dest_file := pathJoin config.destination_world_directory region_file
  let res :=
    if src_file ∉ fs ∧ dest_file ∈ fs then os_remove flt fs dest_file
    else shutil_copyfile flt fs src_file dest_file
  match res with
  | .error _ => (fs, false)
  | .ok fs2 => (fs2, true)

/-- The inner `for region_file in region.to_file_list()` loop body: after each
file, `historyList.append((region, flag))` — one entry per file. -/
def transfer_files (config : Config) (flt : Faults) (region : Region) :
    List String → List String → List (Region × Bool) → List String × List (Region × Bool)
  | [], fs, hist => (fs, hist)
  | f :: rest, fs, hist =>
      let step := process_file config flt fs f
      transfer_files config flt region rest step.1 (hist ++ [(region, step.2)])

/-- The outer `for region in regionList` loop; `region.to_file_list()` is
evaluated outside the `try`, so its `KeyError` escapes the loop (third
component). -/
def transfer_regions (config : Config) (flt : Faults) :
    List Region → List String → List (Region × Bool) →
      List String × List (Region × Bool) × Option String
  | [], fs, hist => (fs, hist, none)
  | region :: rest, fs, hist =>
      match region.to_file_list config with
      | .error e => (fs, hist, some e)
      | .ok files =>
          let step := transfer_files config flt region files fs hist
          transfer_regions config flt rest step.1 step.2

/-- Observable calls to the service-lifecycle collaborator. -/
inductive Event where
  | stop
  | start
deriving DecidableEq, Repr

/-- Outcome of one `region_update` invocation: lifecycle calls in order, final
filesystem, the new `historyList`, the `regionList` left behind, and the
exception that escaped the worker thread, if any. -/
structure UpdateResult where
  events : List Event
  fs : List String
  historyList : List (Region × Bool)
  regionList : List Region
  raised : Option String

/-- `region_update`: after the countdown it calls `stop()` and waits, clears
`historyList`, runs the transfer loop, and only when the loop finishes without
an escaping exception clears `regionList` and calls `start()`.  An escaping
`KeyError` kills the worker thread between `stop()` and `start()`. -/
def region_update (config : Config) (flt : Faults) (fs : List String)
    (regionList : List Region) : UpdateResult :=
  match transfer_regions config flt regionList fs [] with
  | (fs2, hist, some e) => ⟨[.stop], fs2, hist, regionList, some e⟩
  | (fs2, hist, none) => ⟨[.stop, .start], fs2, hist, [], none⟩

/-- The process-wide mutable state: the three global lists plus the protected
side file. -/
structure PluginState where
  regionList : List Region
  protectedRegionList : List Region
  historyList : List (Region × Bool)
  file : FileContent

/-- The state right after a fresh module import with no side file. -/
def initState : PluginState := ⟨[], [], [], .absent⟩

/-- `add_region` as a transition on the plugin state. -/
def apply_add_region (s : PluginState) (r : Region) : PluginState :=
  { s with regionList := (add_region s.regionList s.protectedRegionList r).1 }

/-- `delete_region` as a transition on the plugin state. -/
def apply_delete_region (s : PluginState) (r : Region) : PluginState :=
  { s with regionList := delete_region s.regionList r }

/-- `clean_region_list`: `regionList.clear()`. -/
def clean_region_list (s : PluginState) : PluginState :=
  { s with regionList := [] }

/-- `protect_region`: no-op when already protected; otherwise append to
`protectedRegionList`, remove from `regionList` when present, and
`save_protected_region_file()`. -/
def protect_region (s : PluginState) (region : Region) : PluginState :=
  if region ∈ s.protectedRegionList then s
  else
    let prot := s.protectedRegionList ++ [region]
    let pend := if region ∈ s.regionList then s.regionList.erase region else s.regionList
    { s with protectedRegionList := prot, regionList := pend,
             file := save_protected_region_file prot }

/-- `deprotect_region`: remove and save when protected, otherwise only a
reply. -/
def deprotect_region (s : PluginState) (region : Region) : PluginState :=
  if region ∈ s.protectedRegionList then
    let prot := s.protectedRegionList.erase region
    { s with protectedRegionList := prot, file := save_protected_region_file prot }
  else s

/-- `deprotect_all_regions`: clear and save. -/
def deprotect_all_regions (s : PluginState) : PluginState :=
  { s with protectedRegionList := [], file := save_protected_region_file [] }

/-- `region_update` as a transition on the plugin state (the filesystem and the
fault oracle are inputs of the batch). -/
def apply_update (config : Config) (flt : Faults) (fs : List String) (s : PluginState) :
    PluginState :=
  let res := region_update config flt fs s.regionList
  { s with historyList := res.historyList, regionList := res.regionList }

/-- `on_load` at a plugin reload: the fresh module starts with empty globals,
the old `historyList` and `regionList` are handed over (`protectedRegionList`
is not), and `load_protected_region_file` then runs on the fresh empty list. -/
def on_load (s : PluginState) : PluginState :=
  let res := load_protected_region_file [] s.file
  { regionList := s.regionList, protectedRegionList := res.protectedRegionList,
    historyList := s.historyList, file := res.file }

/-- One observable operation of the plugin.  `fileCorrupted` models the side
file becoming unparseable through outside interference. -/
inductive Step : PluginState → PluginState → Prop
  | add (s : PluginState) (r : Region) : Step s (apply_add_region s r)
  | del (s : PluginState) (r : Region) : Step s (apply_delete_region s r)
  | delAll (s : PluginState) : Step s (clean_region_list s)
  | protect (s : PluginState) (r : Region) : Step s (protect_region s r)
  | deprotect (s : PluginState) (r : Region) : Step s (deprotect_region s r)
  | deprotectAll (s : PluginState) : Step s (deprotect_all_regions s)
  | update (config : Config) (flt : Faults) (fs : List String) (s : PluginState) :
      Step s (apply_update config flt fs s)
  | reload (s : PluginState) : Step s (on_load s)
  | fileCorrupted (s : PluginState) : Step s { s with file := .corrupt }

/-- States reachable from a fresh install by plugin operations. -/
inductive Reachable : PluginState → Prop
  | init : Reachable initState
  | step {s t : PluginState} : Reachable s → Step s t → Reachable t

/-- The inductive invariant: pending and protected are disjoint, pending has no
duplicates, and the side file is absent, corrupt, or exactly the serialization
of the in-memory protected list. -/
def StateInv (s : PluginState) : Prop :=
  s.regionList.Disjoint s.protectedRegionList ∧
  s.regionList.Nodup ∧
  (s.file = .absent ∨ s.file = .corrupt ∨
    s.file = .content (serializeRegionList s.protectedRegionList))

/-- The file list of a region whose dimension is mapped (`[]` for an unmapped
dimension; used only under a hypothesis ruling that case out). -/
def okFileList (config : Config) (r : Region) : List String :=
  match r.to_file_list config with
  | .ok files => files
  | .error _ => []

/-- A configuration whose single mapped dimension `0` holds one folder, so each
region expands to exactly one file. -/
def cfgABC : Config :=
  { enabled := true
    protected_region_file_name := "protected-regions.json"
    source_world_directory := "S"
    destination_world_directory := "D"
    dimension_region_folder := [("0", .single "reg")] }

def rA : Region := ⟨0, 0, 0⟩

def rB : Region := ⟨1, 0, 0⟩

def rC : Region := ⟨2, 0, 0⟩

/-- A region whose dimension `9` has no entry in `cfgABC`. -/
def rBad : Region := ⟨0, 0, 9⟩

/-- Filesystem for the three-region scenario: A's source is missing while its
destination exists, B's and C's sources exist. -/
def fsABC : List String :=
  ["D/reg/r.0.0.mca", "S/reg/r.1.0.mca", "S/reg/r.2.0.mca"]

/-- Fault oracle for the three-region scenario: only C's copy raises. -/
def fltABC : Faults :=
  { removeFaults := [], copyFaults := [("S/reg/r.2.0.mca", "D/reg/r.2.0.mca")] }

/-- A configuration mapping dimension `0` to two folders, so one region expands
to two files. -/
def cfgMulti : Config :=
  { enabled := true
    protected_region_file_name := "protected-regions.json"
    source_world_directory := "S"
    destination_world_directory := "D"
    dimension_region_folder := [("0", .multi ["f1", "f2"])] }

def rM : Region := ⟨0, 0, 0⟩

/-- Both source files of `rM` exist. -/
def fsMulti : List String := ["S/f1/r.0.0.mca", "S/f2/r.0.0.mca"]

/-- Only the first of `rM`'s two copies raises. -/
def fltMulti : Faults :=
  { removeFaults := [], copyFaults := [("S/f1/r.0.0.mca", "D/f1/r.0.0.mca")] }

def rW : Region := ⟨1, -2, 0⟩

/-- Witness list for the persistence round trip. -/
def lW : List Region := [⟨1, -2, 0⟩, ⟨3, 4, -1⟩]

/-- A concrete reachable state: add a region, protect it, then reload. -/
def sW3 : PluginState := on_load (protect_region (apply_add_region initState rW) rW)

/-- A concrete reachable state: the same region added twice. -/
def sW9 : PluginState := apply_add_region (apply_add_region initState rW) rW

/-- Decoding inverts serialization on a single region. -/
theorem decode_serialize (r : Region) : decodeRegion (serializeRegion r) = some r := rfl

/-- Extending from a serialized region list appends exactly those regions and
raises nothing. -/
theorem extendRegions_serialized (l : List Region) :
    ∀ acc : List Region, extendRegions acc (l.map serializeRegion) = (acc ++ l, true) := by
  induction l with
  | nil => intro acc; simp [extendRegions]
  | cons r rest ih =>
      intro acc
      simp only [List.map_cons, extendRegions, decode_serialize, ih]
      simp

/-- C5: for every non-empty protected list, saving writes an ordered JSON array
of objects with fields x, z, dim, and loading that file back into a fresh
(empty) in-memory list reproduces the protected list exactly, same members in
the same order, with no exception. -/
theorem save_load_roundtrip (l : List Region) (_h : l ≠ []) :
    save_protected_region_file l =
      .content (.arr (l.map (fun r =>
        .obj [("x", .num r.x), ("z", .num r.z), ("dim", .num r.dim)]))) ∧
    (load_protected_region_file [] (save_protected_region_file l)).protectedRegionList = l ∧
    (load_protected_region_file [] (save_protected_region_file l)).raised = false := by
  refine ⟨rfl, ?_, ?_⟩ <;>
    simp [load_protected_region_file, save_protected_region_file, serializeRegionList,
      extendRegions_serialized]

/-- Witness for C5 at a concrete two-element protected list. -/
theorem save_load_roundtrip_witness :
    lW ≠ [] ∧
    (save_protected_region_file lW =
        .content (.arr (lW.map (fun r =>
          .obj [("x", .num r.x), ("z", .num r.z), ("dim", .num r.dim)]))) ∧
      (load_protected_region_file [] (save_protected_region_file lW)).protectedRegionList = lW ∧
      (load_protected_region_file [] (save_protected_region_file lW)).raised = false) :=
  ⟨by decide, save_load_roundtrip lW (by decide)⟩

/-- C6: an unparseable protected file is logged, the persisted file is reset to
a valid empty JSON array, the in-memory list becomes empty, and no exception
propagates; a missing file leaves the (empty) in-memory list empty with no
error. -/
theorem load_corrupt_self_heals (cur : List Region) :
    load_protected_region_file cur .corrupt =
      ⟨[], .content (.arr []), true, false⟩ ∧
    load_protected_region_file [] .absent = ⟨[], .absent, false, false⟩ :=
  ⟨rfl, rfl⟩

/-- C10: loading a well-formed protected file appends its entries, in file
order, after whatever is already in memory; loading the same file twice
therefore duplicates its entries instead of replacing them. -/
theorem load_appends (cur l : List Region) :
    (load_protected_region_file cur
        (.content (.arr (l.map serializeRegion)))).protectedRegionList = cur ++ l ∧
    (load_protected_region_file
        ((load_protected_region_file cur
          (.content (.arr (l.map serializeRegion)))).protectedRegionList)
        (.content (.arr (l.map serializeRegion)))).protectedRegionList = (cur ++ l) ++ l := by
  simp [load_protected_region_file, extendRegions_serialized]

/-- C7: `to_file_list` raises exactly when the region's dimension id is absent
from the dimension-folder mapping; when the dimension is mapped it returns one
relative path per mapped folder, in mapping order, a single folder acting as a
one-element list. -/
theorem to_file_list_iff (config : Config) (r : Region) :
    (r.to_file_list config = .error "KeyError" ↔
      config.dimension_region_folder.lookup (toString r.dim) = none) ∧
    (∀ fspec, config.dimension_region_folder.lookup (toString r.dim) = some fspec →
      r.to_file_list config =
        .ok (fspec.toList.map (fun folder => pathJoin folder r.to_file_name))) := by
  rcases hl : config.dimension_region_folder.lookup (toString r.dim) with _ | fspec
  · simp [Region.to_file_list, hl]
  · cases fspec <;> simp [Region.to_file_list, hl, FolderSpec.toList]

/-- Witness for C7: dimension 0 of `cfgABC` is mapped to the single folder
"reg". -/
theorem to_file_list_iff_witness :
    Region.to_file_list ⟨0, 0, 0⟩ cfgABC =
      .ok [pathJoin "reg" (Region.to_file_name ⟨0, 0, 0⟩)] :=
  (to_file_list_iff cfgABC ⟨0, 0, 0⟩).2 (.single "reg") rfl

/-- C4 counterexample: for a region in the protected list (and not pending),
`add_region` changes nothing and sends no reply at all, while the claim says it
signals "protected". -/
theorem add_region_protected_silent :
    add_region [] [⟨1, -2, 0⟩] ⟨1, -2, 0⟩ = ([], none) := by decide

/-- C4 amended: `add_region` is a no-op signalling "already present" when the
region is pending, a silent no-op (no signal) when it is protected, and
otherwise appends to the end of pending and signals success; called twice on a
fresh region it leaves pending containing the region exactly once with the
second call signalling "already present". -/
theorem add_region_cases (p q : List Region) (r : Region) :
    (r ∈ p → add_region p q r = (p, some .alreadyExists)) ∧
    (r ∉ p → r ∈ q → add_region p q r = (p, none)) ∧
    (r ∉ p → r ∉ q → add_region p q r = (p ++ [r], some .added)) ∧
    (r ∉ p → r ∉ q →
      (add_region (add_region p q r).1 q r).1.count r = 1 ∧
      (add_region (add_region p q r).1 q r).2 = some .alreadyExists) := by
  refine ⟨fun hp => ?_, fun hp hq => ?_, fun hp hq => ?_, fun hp hq => ?_⟩
  · simp [add_region, hp]
  · simp [add_region, hp, hq]
  · simp [add_region, hp, hq]
  · have h1 : (add_region p q r).1 = p ++ [r] := by simp [add_region, hp, hq]
    have hr : r ∈ p ++ [r] := by simp
    rw [h1]
    refine ⟨?_, by simp [add_region, hr]⟩
    have : (p ++ [r]).count r = p.count r + 1 := by
      simp [List.count_append]
    rw [show (add_region (p ++ [r]) q r).1 = p ++ [r] by simp [add_region, hr]]
    rw [this, List.count_eq_zero.2 hp]

/-- Witness for C4 amended at concrete lists. -/
theorem add_region_cases_witness :
    ((⟨1, -2, 0⟩ : Region) ∉ ([] : List Region)) ∧
    ((⟨1, -2, 0⟩ : Region) ∉ ([⟨9, 9, 9⟩] : List Region)) ∧
    (add_region [] [⟨9, 9, 9⟩] ⟨1, -2, 0⟩ = ([⟨1, -2, 0⟩], some .added)) ∧
    ((add_region (add_region [] [⟨9, 9, 9⟩] ⟨1, -2, 0⟩).1 [⟨9, 9, 9⟩] ⟨1, -2, 0⟩).1.count
        ⟨1, -2, 0⟩ = 1 ∧
      (add_region (add_region [] [⟨9, 9, 9⟩] ⟨1, -2, 0⟩).1 [⟨9, 9, 9⟩] ⟨1, -2, 0⟩).2 =
        some .alreadyExists) :=
  ⟨by decide, by decide,
    (add_region_cases [] [⟨9, 9, 9⟩] ⟨1, -2, 0⟩).2.2.1 (by decide) (by decide),
    (add_region_cases [] [⟨9, 9, 9⟩] ⟨1, -2, 0⟩).2.2.2 (by decide) (by decide)⟩

/-- C8 counterexample: at the world coordinate -1/2 the code first truncates
toward zero (`int`), landing in region index 0, while floor division of the
coordinate itself gives region index -1. -/
theorem get_region_from_source_fractional :
    (get_region_from_source (-(1 : ℚ)/2) (-(1 : ℚ)/2) 0).x = 0 ∧
    Int.floor ((-(1 : ℚ)/2) / 512) = -1 := by
  constructor
  · have hnum : ((-(1 : ℚ)/2)).num = -1 := by norm_num
    have hden : ((-(1 : ℚ)/2)).den = 2 := by norm_num
    simp only [get_region_from_source, pyInt, hnum, hden]
    decide
  · rw [show (-(1 : ℚ)/2) / 512 = -(1/1024) by norm_num]
    rw [Int.floor_eq_iff]
    norm_num

/-- C8 amended: for every integral world coordinate pair, including negative
ones, the code returns the region with indices floor(worldX / 512) and
floor(worldZ / 512); only non-integral coordinates in (-1, 0) are displaced by
the truncation `int()` performs before the floor division. -/
theorem get_region_from_source_int_coords (wx wz dim : Int) :
    get_region_from_source (wx : ℚ) (wz : ℚ) dim =
      ⟨Int.floor ((wx : ℚ) / 512), Int.floor ((wz : ℚ) / 512), dim⟩ := by
  have hpy : ∀ a : Int, pyInt (a : ℚ) = a := by
    intro a
    simp [pyInt, Rat.num_intCast, Rat.den_intCast, Int.sign_mul_abs]
  have hfdiv : ∀ a : Int, Int.fdiv a 512 = Int.floor ((a : ℚ) / 512) := by
    intro a
    rw [Int.fdiv_eq_ediv _ (by norm_num)]
    rw [show ((512 : ℚ)) = ((512 : ℕ) : ℚ) by norm_num]
    rw [Rat.floor_intCast_div_natCast]
    norm_num
  simp [get_region_from_source, hpy, hfdiv]

/-- When every region of the list has a mapped dimension, no exception escapes
the transfer loop. -/
theorem transfer_regions_no_raise (config : Config) (flt : Faults) (l : List Region) :
    ∀ (fs : List String) (hist : List (Region × Bool)),
      (∀ r ∈ l, (r.to_file_list config).isOk = true) →
      (transfer_regions config flt l fs hist).2.2 = none := by
  induction l with
  | nil => intro fs hist h; rfl
  | cons r rest ih =>
      intro fs hist h
      have hr := h r (List.mem_cons_self r rest)
      rcases hfl : r.to_file_list config with e | files
      · rw [hfl] at hr; simp [Except.isOk, Except.toBool] at hr
      · simp only [transfer_regions, hfl]
        exact ih _ _ (fun x hx => h x (List.mem_cons_of_mem _ hx))

/-- The inner file loop appends one history entry per file of the region, in
file order. -/
theorem transfer_files_map_fst (config : Config) (flt : Faults) (region : Region)
    (files : List String) :
    ∀ (fs : List String) (hist : List (Region × Bool)),
      ((transfer_files config flt region files fs hist).2).map Prod.fst
        = hist.map Prod.fst ++ files.map (fun _ => region) := by
  induction files with
  | nil => intro fs hist; simp [transfer_files]
  | cons f rest ih =>
      intro fs hist
      simp only [transfer_files]
      rw [ih]
      simp

/-- The outer loop appends, for each region in pending order, one entry per
file of that region. -/
theorem transfer_regions_map_fst (config : Config) (flt : Faults) (l : List Region) :
    ∀ (fs : List String) (hist : List (Region × Bool)),
      (∀ r ∈ l, (r.to_file_list config).isOk = true) →
      ((transfer_regions config flt l fs hist).2.1).map Prod.fst
        = hist.map Prod.fst ++ l.flatMap (fun r => (okFileList config r).map (fun _ => r)) := by
  induction l with
  | nil => intro fs hist h; simp [transfer_regions]
  | cons r rest ih =>
      intro fs hist h
      have hr := h r (List.mem_cons_self r rest)
      rcases hfl : r.to_file_list config with e | files
      · rw [hfl] at hr; simp [Except.isOk, Except.toBool] at hr
      · simp only [transfer_regions, hfl]
        rw [ih _ _ (fun x hx => h x (List.mem_cons_of_mem _ hx))]
        rw [transfer_files_map_fst]
        have hok : okFileList config r = files := by simp [okFileList, hfl]
        simp [hok]

/-- C1 counterexample: one pending region with two mapped folders whose first
copy raises; the batch appends two ledger pairs for that single region, the
second one successful, so the region is neither judged as a whole nor are its
remaining files aborted, and the ledger does not hold one pair per region. -/
theorem region_update_two_entries_one_region :
    (region_update cfgMulti fltMulti fsMulti [rM]).historyList
      = [(rM, false), (rM, true)] := by decide

/-- C1 amended: any exception while deleting or copying one file marks that
file's ledger entry failed; the region's remaining files are still processed,
each appending its own (region, success) pair, so the ledger holds exactly one
pair per file (regions in pending order, a region's files in mapping order),
subsequent regions continue, and pending is cleared. -/
theorem region_update_history_per_file (config : Config) (flt : Faults) (fs : List String)
    (l : List Region)
    (h : ∀ r ∈ l, (Region.to_file_list r config).isOk = true) :
    ((region_update config flt fs l).historyList).map Prod.fst
        = l.flatMap (fun r => (okFileList config r).map (fun _ => r)) ∧
    (region_update config flt fs l).regionList = [] := by
  have hn := transfer_regions_no_raise config flt l fs [] h
  have hm := transfer_regions_map_fst config flt l fs [] h
  rcases htr : transfer_regions config flt l fs [] with ⟨fs2, hist, exc⟩
  rw [htr] at hn hm
  simp at hn
  subst hn
  simp at hm
  simp [region_update, htr, hm]

/-- Witness for C1 amended: the three-region scenario in which A's stale
destination is deleted, B's copy succeeds and C's copy raises; the ledger is
[(A, true), (B, true), (C, false)] and pending is emptied. -/
theorem region_update_history_per_file_witness :
    (((region_update cfgABC fltABC fsABC [rA, rB, rC]).historyList).map Prod.fst
        = [rA, rB, rC].flatMap (fun r => (okFileList cfgABC r).map (fun _ => r)) ∧
      (region_update cfgABC fltABC fsABC [rA, rB, rC]).regionList = []) ∧
    (region_update cfgABC fltABC fsABC [rA, rB, rC]).historyList
        = [(rA, true), (rB, true), (rC, false)] :=
  ⟨region_update_history_per_file cfgABC fltABC fsABC [rA, rB, rC] (by decide), by decide⟩

/-- C2 counterexample: a pending region whose dimension has no folder-mapping
entry makes the worker raise KeyError after stop and before start, so the
service is left stopped. -/
theorem region_update_unmapped_leaves_stopped :
    (region_update cfgABC fltABC fsABC [rBad]).events = [Event.stop] ∧
    (region_update cfgABC fltABC fsABC [rBad]).raised = some "KeyError" := by decide

/-- C2 amended: whenever every pending region's dimension id has a
folder-mapping entry, the batch calls stop and then start in strict order,
exactly once each, with no escaping exception, regardless of how many file
deletions or copies fail. -/
theorem region_update_stop_start (config : Config) (flt : Faults) (fs : List String)
    (l : List Region)
    (h : ∀ r ∈ l, (Region.to_file_list r config).isOk = true) :
    (region_update config flt fs l).events = [Event.stop, Event.start] ∧
    (region_update config flt fs l).raised = none := by
  have hn := transfer_regions_no_raise config flt l fs [] h
  rcases htr : transfer_regions config flt l fs [] with ⟨fs2, hist, exc⟩
  rw [htr] at hn
  simp at hn
  subst hn
  simp [region_update, htr]

/-- Witness for C2 amended: the same three-region scenario, in which C's copy
fails yet the service is stopped once and restarted once. -/
theorem region_update_stop_start_witness :
    (region_update cfgABC fltABC fsABC [rA, rB, rC]).events = [Event.stop, Event.start] ∧
    (region_update cfgABC fltABC fsABC [rA, rB, rC]).raised = none :=
  region_update_stop_start cfgABC fltABC fsABC [rA, rB, rC] (by decide)

/-- The invariant holds in the initial state. -/
theorem stateInv_init : StateInv initState :=
  ⟨by intro a ha hb; simp [initState] at ha, by simp [initState], Or.inl rfl⟩

/-- `add_region` leaves the pending list unchanged or appends a region absent
from both lists. -/
theorem add_region_fst (p q : List Region) (r : Region) :
    (add_region p q r).1 = p ∨ ((add_region p q r).1 = p ++ [r] ∧ r ∉ p ∧ r ∉ q) := by
  unfold add_region
  by_cases hp : r ∈ p
  · simp [hp]
  · by_cases hq : r ∈ q
    · simp [hp, hq]
    · right; simp [hp, hq]

/-- `add_region` preserves the invariant. -/
theorem stateInv_add (s : PluginState) (r : Region) (h : StateInv s) :
    StateInv (apply_add_region s r) := by
  obtain ⟨hd, hn, hf⟩ := h
  rcases add_region_fst s.regionList s.protectedRegionList r with heq | ⟨heq, hp, hq⟩
  · refine ⟨?_, ?_, hf⟩
    · show ((add_region s.regionList s.protectedRegionList r).1).Disjoint s.protectedRegionList
      rw [heq]; exact hd
    · show ((add_region s.regionList s.protectedRegionList r).1).Nodup
      rw [heq]; exact hn
  · refine ⟨?_, ?_, hf⟩
    · show ((add_region s.regionList s.protectedRegionList r).1).Disjoint s.protectedRegionList
      rw [heq]
      intro a ha hb
      rcases List.mem_append.1 ha with h1 | h1
      · exact hd h1 hb
      · simp at h1; subst h1; exact hq hb
    · show ((add_region s.regionList s.protectedRegionList r).1).Nodup
      rw [heq]
      refine List.nodup_append.2 ⟨hn, List.nodup_singleton r, ?_⟩
      intro a ha hb
      simp at hb; subst hb; exact hp ha

/-- `delete_region` preserves the invariant. -/
theorem stateInv_del (s : PluginState) (r : Region) (h : StateInv s) :
    StateInv (apply_delete_region s r) := by
  obtain ⟨hd, hn, hf⟩ := h
  refine ⟨?_, ?_, hf⟩
  · show (delete_region s.regionList r).Disjoint s.protectedRegionList
    unfold delete_region
    by_cases hp : r ∈ s.regionList
    · rw [if_pos hp]
      intro a ha hb
      exact hd (List.mem_of_mem_erase ha) hb
    · rw [if_neg hp]; exact hd
  · show (delete_region s.regionList r).Nodup
    unfold delete_region
    by_cases hp : r ∈ s.regionList
    · rw [if_pos hp]; exact hn.erase r
    · rw [if_neg hp]; exact hn

/-- `clean_region_list` preserves the invariant. -/
theorem stateInv_delAll (s : PluginState) (h : StateInv s) :
    StateInv (clean_region_list s) := by
  obtain ⟨hd, hn, hf⟩ := h
  exact ⟨fun a ha hb => absurd ha (List.not_mem_nil a), List.nodup_nil, hf⟩

/-- `protect_region` preserves the invariant. -/
theorem stateInv_protect (s : PluginState) (r : Region) (h : StateInv s) :
    StateInv (protect_region s r) := by
  obtain ⟨hd, hn, hf⟩ := h
  unfold protect_region
  by_cases hq : r ∈ s.protectedRegionList
  · rw [if_pos hq]; exact ⟨hd, hn, hf⟩
  · rw [if_neg hq]
    refine ⟨?_, ?_, Or.inr (Or.inr rfl)⟩
    · by_cases hp : r ∈ s.regionList
      · show (if r ∈ s.regionList then s.regionList.erase r else s.regionList).Disjoint
          (s.protectedRegionList ++ [r])
        rw [if_pos hp]
        intro a ha hb
        obtain ⟨hne, hal⟩ := (List.Nodup.mem_erase_iff hn).1 ha
        rcases List.mem_append.1 hb with h1 | h1
        · exact hd hal h1
        · simp at h1; exact hne h1
      · show (if r ∈ s.regionList then s.regionList.erase r else s.regionList).Disjoint
          (s.protectedRegionList ++ [r])
        rw [if_neg hp]
        intro a ha hb
        rcases List.mem_append.1 hb with h1 | h1
        · exact hd ha h1
        · simp at h1; subst h1; exact hp ha
    · show (if r ∈ s.regionList then s.regionList.erase r else s.regionList).Nodup
      by_cases hp : r ∈ s.regionList
      · rw [if_pos hp]; exact hn.erase r
      · rw [if_neg hp]; exact hn

/-- `deprotect_region` preserves the invariant. -/
theorem stateInv_deprotect (s : PluginState) (r : Region) (h : StateInv s) :
    StateInv (deprotect_region s r) := by
  obtain ⟨hd, hn, hf⟩ := h
  unfold deprotect_region
  by_cases hq : r ∈ s.protectedRegionList
  · rw [if_pos hq]
    refine ⟨?_, hn, Or.inr (Or.inr rfl)⟩
    intro a ha hb
    exact hd ha (List.mem_of_mem_erase hb)
  · rw [if_neg hq]; exact ⟨hd, hn, hf⟩

/-- `deprotect_all_regions` preserves the invariant. -/
theorem stateInv_deprotectAll (s : PluginState) (h : StateInv s) :
    StateInv (deprotect_all_regions s) := by
  obtain ⟨hd, hn, hf⟩ := h
  exact ⟨fun a ha hb => absurd hb (List.not_mem_nil a), hn, Or.inr (Or.inr rfl)⟩

/-- The batch either clears the pending list or, when it dies on a KeyError,
leaves it untouched. -/
theorem region_update_regionList_cases (config : Config) (flt : Faults) (fs : List String)
    (l : List Region) :
    (region_update config flt fs l).regionList = [] ∨
    (region_update config flt fs l).regionList = l := by
  unfold region_update
  rcases htr : transfer_regions config flt l fs [] with ⟨fs2, hist, exc⟩
  cases exc <;> simp

/-- `region_update` preserves the invariant. -/
theorem stateInv_update (config : Config) (flt : Faults) (fs : List String) (s : PluginState)
    (h : StateInv s) : StateInv (apply_update config flt fs s) := by
  obtain ⟨hd, hn, hf⟩ := h
  rcases region_update_regionList_cases config flt fs s.regionList with heq | heq
  · refine ⟨?_, ?_, hf⟩
    · show ((region_update config flt fs s.regionList).regionList).Disjoint s.protectedRegionList
      rw [heq]; intro a ha hb; simp at ha
    · show ((region_update config flt fs s.regionList).regionList).Nodup
      rw [heq]; exact List.nodup_nil
  · refine ⟨?_, ?_, hf⟩
    · show ((region_update config flt fs s.regionList).regionList).Disjoint s.protectedRegionList
      rw [heq]; exact hd
    · show ((region_update config flt fs s.regionList).regionList).Nodup
      rw [heq]; exact hn

/-- A plugin reload (hand over pending and history, reload protected from the
side file) preserves the invariant. -/
theorem stateInv_reload (s : PluginState) (h : StateInv s) : StateInv (on_load s) := by
  obtain ⟨hd, hn, hf⟩ := h
  rcases hf with hf | hf | hf
  · refine ⟨?_, hn, Or.inl ?_⟩
    · show s.regionList.Disjoint ((load_protected_region_file [] s.file).protectedRegionList)
      rw [hf]
      intro a ha hb
      simp [load_protected_region_file] at hb
    · show (load_protected_region_file [] s.file).file = .absent
      rw [hf]
      rfl
  · refine ⟨?_, hn, Or.inr (Or.inr ?_)⟩
    · show s.regionList.Disjoint ((load_protected_region_file [] s.file).protectedRegionList)
      rw [hf]
      intro a ha hb
      simp [load_protected_region_file] at hb
    · show (load_protected_region_file [] s.file).file =
        .content (serializeRegionList ((load_protected_region_file [] s.file).protectedRegionList))
      rw [hf]
      rfl
  · have hload : (load_protected_region_file [] s.file).protectedRegionList
        = s.protectedRegionList := by
      rw [hf]
      simp [load_protected_region_file, serializeRegionList, extendRegions_serialized]
    refine ⟨?_, hn, Or.inr (Or.inr ?_)⟩
    · show s.regionList.Disjoint ((load_protected_region_file [] s.file).protectedRegionList)
      rw [hload]; exact hd
    · show (load_protected_region_file [] s.file).file =
        .content (serializeRegionList ((load_protected_region_file [] s.file).protectedRegionList))
      rw [hload, hf]
      simp [load_protected_region_file, serializeRegionList]

/-- Every operation preserves the invariant. -/
theorem stateInv_step {s t : PluginState} (hstep : Step s t) (h : StateInv s) : StateInv t :=
  match hstep with
  | .add s r => stateInv_add s r h
  | .del s r => stateInv_del s r h
  | .delAll s => stateInv_delAll s h
  | .protect s r => stateInv_protect s r h
  | .deprotect s r => stateInv_deprotect s r h
  | .deprotectAll s => stateInv_deprotectAll s h
  | .update config flt fs s => stateInv_update config flt fs s h
  | .reload s => stateInv_reload s h
  | .fileCorrupted s => ⟨h.1, h.2.1, Or.inr (Or.inl rfl)⟩

/-- Every reachable plugin state satisfies the invariant. -/
theorem reachable_stateInv {s : PluginState} (h : Reachable s) : StateInv s := by
  induction h with
  | init => exact stateInv_init
  | step hr hs ih => exact stateInv_step hs ih

/-- C3: at every observable point of the plugin's lifetime, the pending list
and the protected list are disjoint: every operation, including adding to
pending, protecting a region, the update batch, and a plugin reload that hands
over the pending list and reloads the persisted protected set, preserves the
invariant. -/
theorem pending_protected_disjoint (s : PluginState) (h : Reachable s) :
    s.regionList.Disjoint s.protectedRegionList :=
  (reachable_stateInv h).1

/-- Witness for C3: the state reached by adding a region, protecting it, and
reloading the plugin. -/
theorem pending_protected_disjoint_witness :
    sW3.regionList.Disjoint sW3.protectedRegionList :=
  pending_protected_disjoint sW3
    (Reachable.step
      (Reachable.step (Reachable.step Reachable.init (Step.add initState rW))
        (Step.protect (apply_add_region initState rW) rW))
      (Step.reload (protect_region (apply_add_region initState rW) rW)))

/-- C9: the pending list never contains duplicates: every reachable state of
the plugin, under adds, removes, clears, protects, batches, and reloads, has a
duplicate-free pending list. -/
theorem pending_nodup (s : PluginState) (h : Reachable s) : s.regionList.Nodup :=
  (reachable_stateInv h).2.1

/-- Witness for C9: the state reached by adding the same region twice. -/
theorem pending_nodup_witness : sW9.regionList.Nodup :=
  pending_nodup sW9
    (Reachable.step (Reachable.step Reachable.init (Step.add initState rW))
      (Step.add (apply_add_region initState rW) rW))

end RFU
